import Mathlib

/-!
Verification development for the movie recommendation engine in `src/app.py`
(class `MovieRecommender`).  The Python code is shallowly embedded: pandas
dataframes become lists of records, numpy float vectors become functions into
`ℝ`, and the string manipulation helpers are translated to executable Lean
functions over `List Char`.  Poster resolution (`_get_poster_url`,
`_fetch_omdb_poster`) is external network I/O and is outside the embedded
core, exactly as the specification places it outside the core's scope.
-/

/-! ### Python string primitives -/

/-- Whitespace characters removed by Python's `str.strip` (ASCII subset;
Python additionally strips Unicode whitespace, which never occurs in the
catalog data modelled here). -/
def pyWsChar (c : Char) : Bool :=
  c = ' ' || c = '\t' || c = '\n' || c = '\r' || c = '\x0b' || c = '\x0c'

/-- Python `str.strip()`: remove leading and trailing whitespace. -/
def pyStrip (s : String) : String :=
  ⟨((s.toList.dropWhile pyWsChar).reverse.dropWhile pyWsChar).reverse⟩

/-- Python `str.lower()` (ASCII case folding; the embedded catalog is ASCII). -/
def pyLower (s : String) : String := ⟨s.toList.map Char.toLower⟩

/-- Helper for `pySplit`: accumulate the current (reversed) chunk. -/
def splitOnCharAux (sep : Char) : List Char → List Char → List (List Char)
  | [], acc => [acc.reverse]
  | c :: cs, acc =>
    if c = sep then acc.reverse :: splitOnCharAux sep cs []
    else splitOnCharAux sep cs (c :: acc)

/-- Python `str.split(sep)` for a one-character separator: `"".split('|') = [""]`,
`"a||b".split('|') = ["a", "", "b"]`. -/
def pySplit (sep : Char) (s : String) : List String :=
  (splitOnCharAux sep s.toList []).map (fun cs => ⟨cs⟩)

/-- Helper for `pyContains`: is `p` a contiguous sublist of the argument? -/
def isSubListOf (p : List Char) : List Char → Bool
  | [] => p.isEmpty
  | c :: cs => p.isPrefixOf (c :: cs) || isSubListOf p cs

/-- Python `needle in haystack` on strings (empty needle matches). -/
def pyContains (haystack needle : String) : Bool :=
  isSubListOf needle.toList haystack.toList

/-- Helper for `pyReplace`, fuelled so that the kernel can evaluate it: at each
step either the (non-empty) pattern matches here and is consumed, or one
character is copied.  Fuel equal to the input length always suffices. -/
def replaceFuel (pat rep : List Char) : Nat → List Char → List Char
  | 0, l => l
  | _ + 1, [] => []
  | fuel + 1, c :: cs =>
    if !pat.isEmpty && pat.isPrefixOf (c :: cs) then
      rep ++ replaceFuel pat rep fuel (List.drop (pat.length - 1) cs)
    else
      c :: replaceFuel pat rep fuel cs

/-- Python `str.replace(pat, rep)`: leftmost, non-overlapping. -/
def pyReplace (s pat rep : String) : String :=
  ⟨replaceFuel pat.toList rep.toList s.toList.length s.toList⟩

/-- Embeds `app.py` lines 73–74: `genres.replace('|', ' ')` followed by
removal of the literal sentinel `'(no genres listed)'` (both `regex=False`). -/
def genresProcessed (genres : String) : String :=
  pyReplace (pyReplace genres "|" " ") "(no genres listed)" ""

/-- Embeds `app.py` lines 77–79: the `genre_list` column.
Python: `[g.strip() for g in str(x).split('|') if g and g != '(no genres listed)']`.
Note the filter tests the token before stripping. -/
def genreList (s : String) : List String :=
  ((pySplit '|' s).filter
      (fun g => !(g == "") && !(g == "(no genres listed)"))).map pyStrip

/-- Helper for `cleanTitle`: remove one trailing `\s*\(\d{4}\)\s*$` occurrence,
working on the reversed character list. Embeds the regex in `_clean_title`
(`app.py` line 135). -/
def dropYearSuffix (l : List Char) : List Char :=
  match l.reverse.dropWhile pyWsChar with
  | ')' :: d4 :: d3 :: d2 :: d1 :: '(' :: rest =>
    if d1.isDigit && d2.isDigit && d3.isDigit && d4.isDigit then
      (rest.dropWhile pyWsChar).reverse
    else l
  | _ => l

/-- Embeds `MovieRecommender._clean_title` (`app.py` lines 133–135):
`re.sub(r'\s*\(\d{4}\)\s*$', '', str(title)).strip()`. -/
def cleanTitle (s : String) : String := pyStrip ⟨dropYearSuffix s.toList⟩

/-- Does the list start with `(dddd)`?  Used by `extractYear`. -/
def yearAt : List Char → Option Nat
  | '(' :: d1 :: d2 :: d3 :: d4 :: ')' :: _ =>
    if d1.isDigit && d2.isDigit && d3.isDigit && d4.isDigit then
      some ((d1.toNat - 48) * 1000 + (d2.toNat - 48) * 100 +
            (d3.toNat - 48) * 10 + (d4.toNat - 48))
    else none
  | _ => none

/-- Leftmost match of `\((\d{4})\)`, scanning character by character. -/
def extractYearAux : List Char → Option Int
  | [] => none
  | c :: cs =>
    match yearAt (c :: cs) with
    | some y => some (y : Int)
    | none => extractYearAux cs

/-- Embeds `MovieRecommender._extract_year` (`app.py` lines 128–131):
`re.search(r'\((\d{4})\)', str(title))`, returning the year as an integer. -/
def extractYear (s : String) : Option Int := extractYearAux s.toList

/-! ### The TF-IDF analyzer (models sklearn's `TfidfVectorizer` with
`stop_words='english'`, `ngram_range=(1, 2)` and all other options left at
their defaults, as constructed on `app.py` line 82). -/

/-- Word characters of the default sklearn token pattern `\b\w\w+\b`
(ASCII portion of `\w`). -/
def isWordChar (c : Char) : Bool := c.isAlphanum || c = '_'

/-- Split a character list into maximal runs of word characters. -/
def wordRunsAux : List Char → List Char → List (List Char)
  | [], acc => if acc.isEmpty then [] else [acc.reverse]
  | c :: cs, acc =>
    if isWordChar c then wordRunsAux cs (c :: acc)
    else if acc.isEmpty then wordRunsAux cs [] else acc.reverse :: wordRunsAux cs []

/-- Lowercase, then keep the word runs of length at least two
(sklearn's default `token_pattern=r"(?u)\b\w\w+\b"` with `lowercase=True`). -/
def tokenize (s : String) : List String :=
  ((wordRunsAux (pyLower s).toList []).filter (fun t => 2 ≤ t.length)).map
    (fun cs => ⟨cs⟩)

/-- Models sklearn's fixed `ENGLISH_STOP_WORDS` frozenset selected by
`stop_words='english'`.  The genre vocabulary of the catalog never collides
with it (the spec calls the stop list "a no-op safeguard" for genre tokens),
so the exact extent of this list is immaterial to every claim below. -/
def englishStopWords : List String :=
  ["a", "about", "above", "across", "after", "afterwards", "again", "against",
   "all", "almost", "alone", "along", "already", "also", "although", "always",
   "am", "among", "amongst", "an", "and", "another", "any", "anyhow",
   "anyone", "anything", "anyway", "anywhere", "are", "around", "as", "at",
   "back", "be", "became", "because", "become", "becomes", "becoming", "been",
   "before", "beforehand", "behind", "being", "below", "beside", "besides",
   "between", "beyond", "both", "bottom", "but", "by", "call", "can",
   "cannot", "could", "down", "during", "each", "eight", "either", "eleven",
   "else", "elsewhere", "empty", "enough", "etc", "even", "ever", "every",
   "everyone", "everything", "everywhere", "except", "few", "fifteen",
   "fifty", "fill", "find", "fire", "first", "five", "for", "former",
   "formerly", "forty", "found", "four", "from", "front", "full", "further",
   "get", "give", "go", "had", "has", "have", "he", "hence", "her", "here",
   "hereafter", "hereby", "herein", "hereupon", "hers", "herself", "him",
   "himself", "his", "how", "however", "hundred", "i", "ie", "if", "in",
   "indeed", "interest", "into", "is", "it", "its", "itself", "keep", "last",
   "latter", "latterly", "least", "less", "ltd", "made", "many", "may", "me",
   "meanwhile", "might", "mill", "mine", "more", "moreover", "most", "mostly",
   "move", "much", "must", "my", "myself", "name", "namely", "neither",
   "never", "nevertheless", "next", "nine", "no", "nobody", "none", "nor",
   "not", "nothing", "now", "nowhere", "of", "off", "often", "on", "once",
   "one", "only", "onto", "or", "other", "others", "otherwise", "our",
   "ours", "ourselves", "out", "over", "own", "part", "per", "perhaps",
   "please", "put", "rather", "re", "same", "see", "seem", "seemed",
   "seeming", "seems", "serious", "several", "she", "should", "show", "side",
   "since", "sincere", "six", "sixty", "so", "some", "somehow", "someone",
   "something", "sometime", "sometimes", "somewhere", "still", "such",
   "system", "take", "ten", "than", "that", "the", "their", "them",
   "themselves", "then", "thence", "there", "thereafter", "thereby",
   "therefore", "therein", "thereupon", "these", "they", "thick", "thin",
   "third", "this", "those", "though", "three", "through", "throughout",
   "thru", "thus", "to", "together", "too", "top", "toward", "towards",
   "twelve", "twenty", "two", "un", "under", "until", "up", "upon", "us",
   "very", "via", "was", "we", "well", "were", "what", "whatever", "when",
   "whence", "whenever", "where", "whereafter", "whereas", "whereby",
   "wherein", "whereupon", "wherever", "whether", "which", "while",
   "whither", "who", "whoever", "whole", "whom", "whose", "why", "will",
   "with", "within", "without", "would", "yet", "you", "your", "yours",
   "yourself", "yourselves"]

/-- Adjacent bigrams, joined by a space (sklearn `_word_ngrams` for
`ngram_range=(1,2)`). -/
def bigrams : List String → List String
  | a :: b :: rest => (a ++ " " ++ b) :: bigrams (b :: rest)
  | _ => []

/-- The full analyzer of the vectorizer on `app.py` line 82: tokenize,
drop stop words, then emit unigrams and bigrams. -/
def analyze (doc : String) : List String :=
  let ts := (tokenize doc).filter (fun t => !(englishStopWords.contains t))
  ts ++ bigrams ts

/-- Vocabulary of the fitted vectorizer: every n-gram seen in the corpus
(sklearn additionally sorts it, which only fixes column numbering and is
irrelevant to the token-indexed vectors used here). -/
def vocabOf (docs : List String) : List String := (docs.map analyze).flatten.dedup

/-! ### Data model: raw CSV rows, loaded records, engine state -/

/-- One raw CSV row as produced by `pd.read_csv`.  A `none` field models a
missing (NaN) cell. -/
structure RawRow where
  movieId : Option Int
  title : Option String
  genres : Option String
  year : Option Int := none
  clean_title : Option String := none
  rating : Option ℚ := none
  vote_count : Option ℚ := none
  popularity : Option ℚ := none
  overview : Option String := none
deriving DecidableEq, Inhabited

/-- A parsed CSV: its rows plus which optional columns the header carries.
`_ensure_columns` (`app.py` lines 113–126) tests column presence, not
per-cell presence, so column existence must be modelled separately from
cell values. -/
structure InputTable where
  rows : List RawRow
  hasMovieId : Bool := true
  hasTitle : Bool := true
  hasGenres : Bool := true
  hasYear : Bool := false
  hasCleanTitle : Bool := false
  hasRating : Bool := false
  hasVoteCount : Bool := false
  hasPopularity : Bool := false
  hasOverview : Bool := false
deriving DecidableEq, Inhabited

/-- One fully loaded catalog record (a row of `self.df` after `load_data`).
Its position in the catalog list is the record's 0-based ordinal
(pandas' dense index after `reset_index(drop=True)`). -/
structure Movie where
  movieId : Option Int
  title : String
  genres : String
  year : Option Int
  clean_title : Option String
  rating : Option ℚ
  vote_count : Option ℚ
  popularity : Option ℚ
  overview : Option String
  genres_processed : String
  genre_list : List String
deriving DecidableEq, Inhabited

/-- The recommender's state after `load_data`: `self.df`, `self.is_loaded`,
`self.error_message`.  The TF-IDF matrix is a pure function of `df` and is
recomputed on demand in this embedding (numerically identical). -/
structure RecState where
  df : List Movie
  is_loaded : Bool
  error_message : Option String
deriving DecidableEq, Inhabited

/-! ### Loading (`MovieRecommender.load_data`, `app.py` lines 36–93) -/

/-- Embeds `self.df.dropna(subset=['title', 'genres'])` (`app.py` line 65). -/
def dropIncomplete (rows : List RawRow) : List RawRow :=
  rows.filter (fun r => r.title.isSome && r.genres.isSome)

/-- Helper for `dedupByTitle`: `seen` is the set of titles already kept. -/
def dedupByTitleAux (seen : List (Option String)) : List RawRow → List RawRow
  | [] => []
  | r :: rs =>
    if r.title ∈ seen then dedupByTitleAux seen rs
    else r :: dedupByTitleAux (r.title :: seen) rs

/-- Embeds `self.df.drop_duplicates(subset=['title'])` (`app.py` line 66):
keep the first occurrence of each title. -/
def dedupByTitle (rows : List RawRow) : List RawRow := dedupByTitleAux [] rows

/-- Per-row effect of `_ensure_columns` (`app.py` lines 113–126) together
with the derived columns `genres_processed` and `genre_list` (lines 73–79).
A default is assigned exactly when the corresponding column is absent from
the input table; existing cells, including missing (NaN) ones, are kept. -/
def processRow (tbl : InputTable) (r : RawRow) : Movie :=
  let title := r.title.getD ""
  let genres := r.genres.getD ""
  { movieId := r.movieId
    title := title
    genres := genres
    year := if tbl.hasYear then r.year else extractYear title
    clean_title := if tbl.hasCleanTitle then r.clean_title else some (cleanTitle title)
    rating := if tbl.hasRating then r.rating else some 7
    vote_count := if tbl.hasVoteCount then r.vote_count else some 1000
    popularity := if tbl.hasPopularity then r.popularity else some 50
    overview := if tbl.hasOverview then r.overview else some "A great movie to watch!"
    genres_processed := genresProcessed genres
    genre_list := genreList genres }

/-- Embeds `MovieRecommender.load_data` (`app.py` lines 36–93).  The input is
`none` when none of the candidate CSV files exists (the `FileNotFoundError`
path) and `some tbl` for the first file found.  The required-column check is
line 60–62; the empty-vocabulary failure is the `ValueError` that
`TfidfVectorizer.fit_transform` raises when no document yields any token,
caught by the generic handler on line 91.  Every exception raised inside the
Python `try` block is caught, so this embedding is a total function whose
failure branches leave `is_loaded` false with an error message recorded;
`df` is unused by the read surface while `is_loaded` is false. -/
def loadData (input : Option InputTable) : RecState :=
  match input with
  | none => { df := [], is_loaded := false, error_message := some "No movie dataset found" }
  | some tbl =>
    if tbl.hasMovieId && tbl.hasTitle && tbl.hasGenres then
      let movies := (dedupByTitle (dropIncomplete tbl.rows)).map (processRow tbl)
      if (vocabOf (movies.map (fun m => m.genres_processed))).isEmpty then
        { df := movies, is_loaded := false,
          error_message := some "Error loading data: empty vocabulary; perhaps the documents only contain stop words" }
      else
        { df := movies, is_loaded := true, error_message := none }
    else
      { df := [], is_loaded := false,
        error_message := some "Error loading data: CSV must contain columns: movieId, title, genres" }

/-! ### Query resolution (`MovieRecommender.find_movie`, `app.py` 258–280) -/

/-- Index of the first element satisfying `p` (pandas boolean mask followed
by `.index[0]` on the re-indexed frame). -/
def findFirstIdx (p : α → Bool) : List α → Option Nat
  | [] => none
  | a :: as => if p a then some 0 else (findFirstIdx p as).map (· + 1)

/-- Resolver stage 1 (`app.py` line 266): case-insensitive exact match
against the raw title. -/
def rawTitleMatches (q : String) (m : Movie) : Bool := pyLower m.title == q

/-- Resolver stage 2 (`app.py` line 271): case-insensitive exact match
against the clean title; a missing (NaN) clean title never matches. -/
def cleanTitleMatches (q : String) (m : Movie) : Bool :=
  m.clean_title.map pyLower == some q

/-- Resolver stage 3 (`app.py` line 276): substring test against the
lowercased clean title with `na=False`: a missing clean title never matches. -/
def cleanTitleContains (m : Movie) (q : String) : Bool :=
  match m.clean_title with
  | some ct => pyContains (pyLower ct) q
  | none => false

/-- Embeds `MovieRecommender.find_movie` (`app.py` lines 258–280):
lowercase-and-strip the query, then try, in order, exact raw-title match,
exact clean-title match, clean-title substring match; `none` when nothing
matches or data is not loaded. -/
def findMovie (st : RecState) (query : String) : Option Nat :=
  if !st.is_loaded then none
  else
    let q := pyStrip (pyLower query)
    match findFirstIdx (rawTitleMatches q) st.df with
    | some i => some i
    | none =>
      match findFirstIdx (cleanTitleMatches q) st.df with
      | some i => some i
      | none => findFirstIdx (fun m => cleanTitleContains m q) st.df

/-! ### TF-IDF weights and cosine similarity (`app.py` lines 82–83, 304–306).
These model sklearn's `TfidfVectorizer` with its defaults (`smooth_idf=True`,
`sublinear_tf=False`, `norm='l2'`) and `sklearn.metrics.pairwise.cosine_similarity`.
Vectors are functions from tokens to `ℝ`; every token outside the vocabulary
has weight zero, so sums over the vocabulary capture the whole vector. -/

/-- Term frequency: occurrences of n-gram `t` in the analyzed document. -/
def termCount (doc : String) (t : String) : Nat := (analyze doc).count t

/-- Document frequency of n-gram `t` across the corpus. -/
def docFreq (docs : List String) (t : String) : Nat :=
  docs.countP (fun d => (analyze d).contains t)

/-- Smoothed inverse document frequency:
`idf(t) = ln((1 + n) / (1 + df(t))) + 1`. -/
noncomputable def idf (docs : List String) (t : String) : ℝ :=
  Real.log ((1 + (docs.length : ℝ)) / (1 + (docFreq docs t : ℝ))) + 1

/-- Unnormalized TF-IDF row of document `i`: `tf * idf` per token. -/
noncomputable def tfidfRaw (docs : List String) (i : Nat) : String → ℝ :=
  fun t => (termCount (docs.getD i "") t : ℝ) * idf docs t

/-- Dot product of two token-indexed vectors over the corpus vocabulary. -/
noncomputable def dotV (docs : List String) (u v : String → ℝ) : ℝ :=
  ((vocabOf docs).map (fun t => u t * v t)).sum

/-- Euclidean norm restricted to the vocabulary. -/
noncomputable def l2norm (docs : List String) (u : String → ℝ) : ℝ :=
  Real.sqrt (dotV docs u u)

/-- The `l2`-normalized TF-IDF row stored in `self.tfidf_matrix`
(`app.py` line 83); an all-zero row stays zero (`0 / 0 = 0` in `ℝ` matches
sklearn's `normalize`, which leaves zero rows untouched). -/
noncomputable def tfidfRow (docs : List String) (i : Nat) : String → ℝ :=
  fun t => tfidfRaw docs i t / l2norm docs (tfidfRaw docs i)

/-- Cosine similarity as computed by `sklearn.metrics.pairwise.cosine_similarity`:
normalize both vectors, then take the dot product; a zero vector yields 0. -/
noncomputable def cosineSim (docs : List String) (u v : String → ℝ) : ℝ :=
  dotV docs u v / (l2norm docs u * l2norm docs v)

/-- The corpus the vectorizer was fitted on: the `genres_processed` column. -/
def docsOf (st : RecState) : List String := st.df.map (fun m => m.genres_processed)

/-- Embeds `app.py` lines 305–306:
`cosine_similarity(self.tfidf_matrix[idx], self.tfidf_matrix).flatten()`,
one score per catalog ordinal. -/
noncomputable def simScores (st : RecState) (idx : Nat) : List ℝ :=
  (List.range st.df.length).map (fun j =>
    cosineSim (docsOf st) (tfidfRow (docsOf st) idx) (tfidfRow (docsOf st) j))

/-! ### Ranking (`app.py` lines 308–310).
`similarity_scores.argsort()[::-1]` ascending-argsorts and reverses.  numpy's
default introsort degenerates to a stable insertion sort below its 16-element
cutoff, and the spec asserts the underlying sort is stable, so the argsort is
modelled as the stable insertion sort on indices. -/

/-- Stable insert: `i` is placed before the first entry whose key is not
smaller, so an entry inserted later never jumps ahead of an equal-keyed one. -/
noncomputable def insertRanked (key : Nat → ℝ) (i : Nat) : List Nat → List Nat
  | [] => [i]
  | j :: js => if key j < key i then j :: insertRanked key i js else i :: j :: js

/-- Stable insertion sort of indices by ascending key. -/
noncomputable def argsortKey (key : Nat → ℝ) : List Nat → List Nat
  | [] => []
  | i :: is => insertRanked key i (argsortKey key is)

/-- Embeds `similarity_scores.argsort()`: the indices `0, …, n-1` sorted by
ascending score (stable). -/
noncomputable def argsortAsc (s : List ℝ) : List Nat :=
  argsortKey (fun i => s.getD i 0) (List.range s.length)

/-- Embeds `app.py` lines 309–310: reverse the ascending argsort, drop the
query's own ordinal, keep the first `k`. -/
noncomputable def similarIndices (scores : List ℝ) (idx k : Nat) : List Nat :=
  (((argsortAsc scores).reverse).filter (fun i => !(i == idx))).take k

/-! ### Result construction (`_movie_to_dict` and `get_recommendations`) -/

/-- Python `int()` on a rational cell value: truncation toward zero. -/
def pyIntOfRat (q : ℚ) : Int := if 0 ≤ q then ⌊q⌋ else ⌈q⌉

/-- Round half to even at one decimal, as Python's `round(x, 1)`. -/
noncomputable def roundHalfEven (x : ℝ) : ℤ :=
  if x - ⌊x⌋ = 1 / 2 then (if Even ⌊x⌋ then ⌊x⌋ else ⌊x⌋ + 1) else round x

/-- Embeds `round(value, 1)`: round to the nearest tenth, ties to even. -/
noncomputable def pyRound1 (x : ℝ) : ℝ := ((roundHalfEven (x * 10) : ℤ) : ℝ) / 10

/-- The dictionary built by `_movie_to_dict` (`app.py` lines 205–230).
`poster_url` is produced by the out-of-core poster collaborator (network
I/O) and is not part of the embedded record; a missing (NaN) numeric cell
is carried as `none` (Python would fault on `int(NaN)`, which no claim
exercises). -/
structure MovieDict where
  id : Option Int
  title : String
  clean_title : Option String
  year : Option Int
  genres : List String
  rating : Option ℚ
  vote_count : Option Int
  overview : Option String
  rank : Option Nat
  similarity_score : Option ℝ
deriving Inhabited

/-- Embeds `MovieRecommender._movie_to_dict` (`app.py` lines 205–230): copy
the display fields, attach `rank` when given, and attach
`similarity_score = round(similarity * 100, 1)` when given. -/
noncomputable def movieToDict (m : Movie) (rank : Option Nat) (similarity : Option ℝ) :
    MovieDict :=
  { id := m.movieId
    title := m.title
    clean_title := m.clean_title
    year := m.year
    genres := m.genre_list
    rating := m.rating
    vote_count := m.vote_count.map pyIntOfRat
    overview := m.overview
    rank := rank
    similarity_score := similarity.map (fun s => pyRound1 (s * 100)) }

/-- The result dictionary of `get_recommendations`. -/
structure RecResult where
  selected_movie : Option MovieDict
  recommendations : List MovieDict
  error : Option String
deriving Inhabited

/-- Embeds the loop on `app.py` lines 313–317:
`for rank, sim_idx in enumerate(similar_indices, 1): … _movie_to_dict(row,
rank=rank, similarity=similarity_scores[sim_idx])`. -/
noncomputable def rankedMap (st : RecState) (scores : List ℝ) :
    Nat → List Nat → List MovieDict
  | _, [] => []
  | r, j :: js =>
    movieToDict (st.df.getD j default) (some r) (some (scores.getD j 0)) ::
      rankedMap st scores (r + 1) js

/-- Python truthiness of the `movie_title` argument: non-`None` and non-empty. -/
def pyTruthyStr : Option String → Bool
  | none => false
  | some s => !(s == "")

/-- Python `self.error_message or 'Data not loaded'`: `None` and the empty
string are falsy. -/
def pyOrElse (a : Option String) (b : String) : String :=
  match a with
  | some s => if s == "" then b else s
  | none => b

/-- The success path of `get_recommendations` (`app.py` lines 300–323) once
the query ordinal `idx` is known. -/
noncomputable def recsFor (st : RecState) (idx k : Nat) : RecResult :=
  { selected_movie := some (movieToDict (st.df.getD idx default) none none)
    recommendations :=
      rankedMap st (simScores st idx) 1 (similarIndices (simScores st idx) idx k)
    error := none }

/-- Embeds `MovieRecommender.get_recommendations` (`app.py` lines 282–323):
check `is_loaded` first, then resolve by id (`movieId == movie_id`, first
row), else by truthy title via `find_movie`, else report that no identifier
was supplied. -/
noncomputable def getRecommendations (st : RecState) (movie_id : Option Int)
    (movie_title : Option String) (k : Nat) : RecResult :=
  if !st.is_loaded then
    { selected_movie := none, recommendations := [],
      error := some (pyOrElse st.error_message "Data not loaded") }
  else
    match movie_id with
    | some mid =>
      match findFirstIdx (fun m => m.movieId == some mid) st.df with
      | none => { selected_movie := none, recommendations := [], error := some "Movie not found" }
      | some idx => recsFor st idx k
    | none =>
      if pyTruthyStr movie_title then
        match findMovie st (movie_title.getD "") with
        | none =>
          { selected_movie := none, recommendations := [],
            error := some ("Could not find movie: \"" ++ movie_title.getD "" ++ "\"") }
        | some idx => recsFor st idx k
      else
        { selected_movie := none, recommendations := [],
          error := some "Please provide a movie ID or title" }

/-! ### Concrete catalogs used by witnesses and counterexamples -/

/-- Three movies with identical genre profiles: every pairwise similarity is
equal, so the returned order is decided purely by the tie-breaking rule. -/
def exTable : InputTable :=
  { rows :=
      [ { movieId := some 10, title := some "Alpha", genres := some "Action" },
        { movieId := some 20, title := some "Beta", genres := some "Action" },
        { movieId := some 30, title := some "Gamma", genres := some "Action" } ] }

/-- The recommender state loaded from `exTable`. -/
def exState : RecState := loadData (some exTable)

/-- Cosine similarity of the first `exTable` row with itself; all nine
pairwise similarities in `exState` are definitionally this number. -/
noncomputable def exScore : ℝ :=
  cosineSim (docsOf exState) (tfidfRow (docsOf exState) 0) (tfidfRow (docsOf exState) 0)

/-- A catalog where the first movie's clean title strictly contains the
second movie's clean title: query "heat" substring-matches record 0 but
exact-matches record 1. -/
def heatTable : InputTable :=
  { rows :=
      [ { movieId := some 1, title := some "Dead Heat (1988)", genres := some "Action|Comedy" },
        { movieId := some 2, title := some "Heat (1995)", genres := some "Action|Crime|Thriller" } ] }

/-- The recommender state loaded from `heatTable`. -/
def heatState : RecState := loadData (some heatTable)

/-- A table missing the required `genres` column. -/
def badTable : InputTable := { rows := [], hasGenres := false }

/-- A table whose rating column exists but whose second row's rating cell is
missing (NaN). -/
def ratingGapTable : InputTable :=
  { rows :=
      [ { movieId := some 1, title := some "Alpha", genres := some "Action", rating := some 8 },
        { movieId := some 2, title := some "Beta", genres := some "Comedy", rating := none } ],
    hasRating := true }

/-- A minimal table lacking the rating, vote-count and popularity columns. -/
def noOptTable : InputTable :=
  { rows := [ { movieId := some 1, title := some "Alpha", genres := some "Action" } ] }

/-- A table with a row missing its title and a duplicated title. -/
def dupTable : InputTable :=
  { rows :=
      [ { movieId := some 1, title := some "Alpha", genres := some "Action" },
        { movieId := some 2, title := none, genres := some "Comedy" },
        { movieId := some 3, title := some "Alpha", genres := some "Drama" },
        { movieId := some 4, title := some "Beta", genres := some "Comedy" } ] }

/-! ### Properties of the stable argsort -/

/-- Strict ranking order realized by the stable ascending argsort on a
strictly increasing index list: smaller key first, ties in index order. -/
def rankRel (key : Nat → ℝ) (a b : Nat) : Prop :=
  key a < key b ∨ (key a = key b ∧ a < b)

theorem insertRanked_perm (key : Nat → ℝ) (i : Nat) (L : List Nat) :
    List.Perm (insertRanked key i L) (i :: L) := by
  induction L with
  | nil => exact List.Perm.refl _
  | cons j js ih =>
    by_cases h : key j < key i
    · simp only [insertRanked, if_pos h]
      exact (ih.cons j).trans (List.Perm.swap i j js)
    · simp only [insertRanked, if_neg h]
      exact List.Perm.refl _

theorem argsortKey_perm (key : Nat → ℝ) (l : List Nat) :
    List.Perm (argsortKey key l) l := by
  induction l with
  | nil => exact List.Perm.refl _
  | cons i is ih =>
    exact (insertRanked_perm key i (argsortKey key is)).trans (ih.cons i)

theorem insertRanked_pairwise (key : Nat → ℝ) (i : Nat) (L : List Nat)
    (hL : L.Pairwise (rankRel key)) (hin : ∀ j ∈ L, i < j) :
    (insertRanked key i L).Pairwise (rankRel key) := by
  induction L with
  | nil => simp [insertRanked, rankRel]
  | cons j js ih =>
    rcases List.pairwise_cons.1 hL with ⟨hj, hjs⟩
    by_cases h : key j < key i
    · simp only [insertRanked, if_pos h]
      refine List.pairwise_cons.2 ⟨?_, ih hjs ?_⟩
      · intro b hb
        have hb' : b ∈ i :: js := (insertRanked_perm key i js).mem_iff.1 hb
        rcases List.mem_cons.1 hb' with rfl | hbjs
        · exact Or.inl h
        · exact hj b hbjs
      · intro b hb
        exact hin b (List.mem_cons_of_mem j hb)
    · simp only [insertRanked, if_neg h]
      refine List.pairwise_cons.2 ⟨?_, hL⟩
      intro b hb
      have hij : key i ≤ key j := not_lt.1 h
      rcases List.mem_cons.1 hb with rfl | hbjs
      · rcases lt_or_eq_of_le hij with hlt | heq
        · exact Or.inl hlt
        · exact Or.inr ⟨heq, hin b (List.mem_cons_self b js)⟩
      · rcases hj b hbjs with hlt | ⟨heq, _⟩
        · exact Or.inl (lt_of_le_of_lt hij hlt)
        · rcases lt_or_eq_of_le hij with h2 | h2
          · exact Or.inl (h2.trans_eq heq)
          · exact Or.inr ⟨h2.trans heq, hin b (List.mem_cons_of_mem j hbjs)⟩

theorem argsortKey_pairwise (key : Nat → ℝ) (l : List Nat)
    (hl : l.Pairwise (· < ·)) : (argsortKey key l).Pairwise (rankRel key) := by
  induction l with
  | nil => simp [argsortKey]
  | cons i is ih =>
    rcases List.pairwise_cons.1 hl with ⟨hi, his⟩
    refine insertRanked_pairwise key i (argsortKey key is) (ih his) ?_
    intro j hj
    exact hi j ((argsortKey_perm key is).mem_iff.1 hj)

theorem insertRanked_eq_cons (key : Nat → ℝ) (i : Nat) (L : List Nat)
    (h : ∀ j ∈ L, ¬ key j < key i) : insertRanked key i L = i :: L := by
  cases L with
  | nil => rfl
  | cons j js => simp only [insertRanked, if_neg (h j (List.mem_cons_self j js))]

theorem argsortKey_eq_self (key : Nat → ℝ) (l : List Nat)
    (h : ∀ a ∈ l, ∀ b ∈ l, key a = key b) : argsortKey key l = l := by
  induction l with
  | nil => rfl
  | cons i is ih =>
    have hrec : argsortKey key is = is :=
      ih (fun a ha b hb =>
        h a (List.mem_cons_of_mem i ha) b (List.mem_cons_of_mem i hb))
    rw [argsortKey, hrec, insertRanked_eq_cons]
    intro j hj
    rw [h j (List.mem_cons_of_mem i hj) i (List.mem_cons_self i is)]
    exact lt_irrefl _

theorem argsortAsc_perm (s : List ℝ) :
    List.Perm (argsortAsc s) (List.range s.length) :=
  argsortKey_perm _ _

theorem similarIndices_pairwise (scores : List ℝ) (idx k : Nat) :
    (similarIndices scores idx k).Pairwise (fun a b =>
      scores.getD b 0 ≤ scores.getD a 0 ∧
        (scores.getD a 0 = scores.getD b 0 → b < a)) := by
  have h1 : (argsortAsc scores).Pairwise (rankRel (fun i => scores.getD i 0)) :=
    argsortKey_pairwise _ _ (List.pairwise_lt_range _)
  have h2 : ((argsortAsc scores).reverse).Pairwise
      (fun a b => rankRel (fun i => scores.getD i 0) b a) :=
    List.pairwise_reverse.2 h1
  have h3 := h2.filter (fun i => !(i == idx))
  refine (List.Pairwise.sublist (List.take_sublist _ _) h3).imp ?_
  rintro a b (hlt | ⟨heq, hba⟩)
  · have hlt' : scores.getD b 0 < scores.getD a 0 := hlt
    refine ⟨hlt'.le, fun hc => ?_⟩
    rw [hc] at hlt'
    exact absurd hlt' (lt_irrefl _)
  · have heq' : scores.getD b 0 = scores.getD a 0 := heq
    exact ⟨heq'.le, fun _ => hba⟩

theorem filter_ne_range_length (n idx : Nat) (h : idx < n) :
    ((List.range n).filter (fun i => !(i == idx))).length = n - 1 := by
  induction n with
  | zero => exact absurd h (Nat.not_lt_zero idx)
  | succ n ih =>
    rw [List.range_succ, List.filter_append, List.length_append]
    by_cases hc : idx = n
    · have heq : (List.range n).filter (fun i => !(i == idx)) = List.range n := by
        rw [List.filter_eq_self]
        intro a ha
        have halt : a < n := List.mem_range.1 ha
        have hne : a ≠ idx := by omega
        simp [hne]
      have h2 : List.filter (fun i => !(i == idx)) [n] = [] := by simp [hc]
      rw [heq, h2]
      simp
    · have hlt : idx < n := by omega
      have h2 : List.filter (fun i => !(i == idx)) [n] = [n] := by
        have hne : n ≠ idx := by omega
        simp [hne]
      rw [ih hlt, h2]
      simp
      omega

theorem similarIndices_length (scores : List ℝ) (idx k : Nat)
    (h : idx < scores.length) :
    (similarIndices scores idx k).length = min k (scores.length - 1) := by
  have hperm : List.Perm (argsortAsc scores).reverse (List.range scores.length) :=
    (List.reverse_perm _).trans (argsortAsc_perm scores)
  have hfilter := hperm.filter (fun i => !(i == idx))
  have hlen : ((argsortAsc scores).reverse.filter (fun i => !(i == idx))).length
      = scores.length - 1 := by
    rw [hfilter.length_eq, filter_ne_range_length _ _ h]
  rw [similarIndices, List.length_take, hlen]

theorem similarIndices_mem (scores : List ℝ) (idx k j : Nat)
    (hj : j ∈ similarIndices scores idx k) : j < scores.length ∧ j ≠ idx := by
  have h1 : j ∈ (argsortAsc scores).reverse.filter (fun i => !(i == idx)) :=
    List.mem_of_mem_take hj
  have h2 := List.mem_filter.1 h1
  refine ⟨?_, by simpa using h2.2⟩
  have h3 : j ∈ List.range scores.length :=
    ((List.reverse_perm _).trans (argsortAsc_perm scores)).mem_iff.1 h2.1
  exact List.mem_range.1 h3

theorem rankedMap_length (st : RecState) (scores : List ℝ) (r : Nat) (l : List Nat) :
    (rankedMap st scores r l).length = l.length := by
  induction l generalizing r with
  | nil => rfl
  | cons j js ih => simp [rankedMap, ih]

theorem rankedMap_mem (st : RecState) (scores : List ℝ) (r : Nat) (l : List Nat)
    (d : MovieDict) (hd : d ∈ rankedMap st scores r l) :
    ∃ r' j, j ∈ l ∧
      d = movieToDict (st.df.getD j default) (some r') (some (scores.getD j 0)) := by
  induction l generalizing r with
  | nil => cases hd
  | cons j js ih =>
    rcases List.mem_cons.1 hd with h | h
    · exact ⟨r, j, List.mem_cons_self j js, h⟩
    · rcases ih (r + 1) h with ⟨r', j', hj', he⟩
      exact ⟨r', j', List.mem_cons_of_mem j hj', he⟩

theorem simScores_length (st : RecState) (idx : Nat) :
    (simScores st idx).length = st.df.length := by
  simp [simScores]

theorem simScores_getD (st : RecState) (idx j : Nat) (hj : j < st.df.length) :
    (simScores st idx).getD j 0 =
      cosineSim (docsOf st) (tfidfRow (docsOf st) idx) (tfidfRow (docsOf st) j) := by
  simp [simScores, List.getD_eq_getElem?_getD, List.getElem?_range hj]

/-! ### Properties of `findFirstIdx` (first-match index, pandas `.index[0]`) -/

theorem findFirstIdx_cons_pos {p : α → Bool} {x : α} (xs : List α)
    (hp : p x = true) : findFirstIdx p (x :: xs) = some 0 := by
  simp [findFirstIdx, hp]

theorem findFirstIdx_cons_neg {p : α → Bool} {x : α} (xs : List α)
    (hp : p x = false) :
    findFirstIdx p (x :: xs) = (findFirstIdx p xs).map (· + 1) := by
  simp [findFirstIdx, hp]

theorem findFirstIdx_eq_none_iff (p : α → Bool) (l : List α) :
    findFirstIdx p l = none ↔ ∀ a ∈ l, p a = false := by
  induction l with
  | nil => simp [findFirstIdx]
  | cons x xs ih =>
    cases hp : p x with
    | true => simp [findFirstIdx_cons_pos xs hp, hp]
    | false => simp [findFirstIdx_cons_neg xs hp, hp, ih]

theorem findFirstIdx_eq_some_iff (p : α → Bool) (l : List α) (i : Nat) :
    findFirstIdx p l = some i ↔
      (∃ a, l[i]? = some a ∧ p a = true) ∧
        ∀ j, j < i → ∀ a, l[j]? = some a → p a = false := by
  induction l generalizing i with
  | nil => simp [findFirstIdx]
  | cons x xs ih =>
    cases hp : p x with
    | true =>
      rw [findFirstIdx_cons_pos xs hp]
      constructor
      · intro h
        injection h with h
        subst h
        exact ⟨⟨x, by simp, hp⟩, fun j hj a ha => absurd hj (Nat.not_lt_zero j)⟩
      · rintro ⟨⟨a, ha, hpa⟩, hmin⟩
        cases i with
        | zero => rfl
        | succ i' =>
          have h0 := hmin 0 (Nat.succ_pos i') x (by simp)
          rw [hp] at h0
          cases h0
    | false =>
      rw [findFirstIdx_cons_neg xs hp]
      cases i with
      | zero =>
        simp only [Option.map_eq_some']
        constructor
        · rintro ⟨j, _, hj1⟩
          omega
        · rintro ⟨⟨a, ha, hpa⟩, _⟩
          rw [List.getElem?_cons_zero] at ha
          injection ha with ha
          subst ha
          rw [hp] at hpa
          cases hpa
      | succ i' =>
        rw [Option.map_eq_some']
        constructor
        · rintro ⟨j, hj, hj1⟩
          have hji : i' = j := by omega
          subst hji
          rcases (ih i').1 hj with ⟨hex, hmin⟩
          refine ⟨by simpa using hex, ?_⟩
          intro j hji a ha
          cases j with
          | zero =>
            rw [List.getElem?_cons_zero] at ha
            injection ha with ha
            subst ha
            exact hp
          | succ j' =>
            rw [List.getElem?_cons_succ] at ha
            exact hmin j' (by omega) a ha
        · rintro ⟨hex, hmin⟩
          refine ⟨i', ?_, rfl⟩
          refine (ih i').2 ⟨by simpa using hex, ?_⟩
          intro j hj a ha
          refine hmin (j + 1) (by omega) a ?_
          rw [List.getElem?_cons_succ]
          exact ha

theorem findFirstIdx_lt_length (p : α → Bool) (l : List α) (i : Nat)
    (h : findFirstIdx p l = some i) : i < l.length := by
  rcases (findFirstIdx_eq_some_iff p l i).1 h with ⟨⟨a, ha, _⟩, _⟩
  rcases List.getElem?_eq_some_iff.1 ha with ⟨hlt, _⟩
  exact hlt

/-! ### Properties of title deduplication -/

theorem dedupByTitleAux_sublist (seen : List (Option String)) (l : List RawRow) :
    List.Sublist (dedupByTitleAux seen l) l := by
  induction l generalizing seen with
  | nil => simp [dedupByTitleAux]
  | cons r rs ih =>
    by_cases h : r.title ∈ seen
    · simp only [dedupByTitleAux, if_pos h]
      exact (ih seen).cons r
    · simp only [dedupByTitleAux, if_neg h]
      exact (ih (r.title :: seen)).cons₂ r

theorem dedupByTitleAux_titles (seen : List (Option String)) (l : List RawRow) :
    ((dedupByTitleAux seen l).map (fun r => r.title)).Nodup ∧
      ∀ r ∈ dedupByTitleAux seen l, r.title ∉ seen := by
  induction l generalizing seen with
  | nil => simp [dedupByTitleAux]
  | cons r rs ih =>
    by_cases h : r.title ∈ seen
    · simp only [dedupByTitleAux, if_pos h]
      exact ih seen
    · simp only [dedupByTitleAux, if_neg h]
      rcases ih (r.title :: seen) with ⟨hnd, hseen⟩
      constructor
      · rw [List.map_cons, List.nodup_cons]
        refine ⟨?_, hnd⟩
        intro hmem
        rcases List.mem_map.1 hmem with ⟨r', hr', he⟩
        apply hseen r' hr'
        rw [he]
        exact List.mem_cons_self _ _
      · intro x hx
        rcases List.mem_cons.1 hx with rfl | hx'
        · exact h
        · intro hc
          exact hseen x hx' (List.mem_cons_of_mem _ hc)

theorem dedupByTitleAux_first_mem (seen : List (Option String)) (l : List RawRow)
    (i : Nat) (hi : i < l.length)
    (hseen : (l.get ⟨i, hi⟩).title ∉ seen)
    (hfirst : ∀ j (hj : j < i),
      (l.get ⟨j, Nat.lt_trans hj hi⟩).title ≠ (l.get ⟨i, hi⟩).title) :
    l.get ⟨i, hi⟩ ∈ dedupByTitleAux seen l := by
  induction l generalizing seen i with
  | nil => exact absurd hi (Nat.not_lt_zero i)
  | cons r rs ih =>
    cases i with
    | zero =>
      by_cases h : r.title ∈ seen
      · exact absurd h hseen
      · simp only [dedupByTitleAux, if_neg h]
        exact List.mem_cons_self _ _
    | succ i' =>
      have hi' : i' < rs.length := Nat.lt_of_succ_lt_succ hi
      by_cases h : r.title ∈ seen
      · simp only [dedupByTitleAux, if_pos h]
        exact ih seen i' hi' hseen
          (fun j hj => hfirst (j + 1) (Nat.succ_lt_succ hj))
      · simp only [dedupByTitleAux, if_neg h]
        refine List.mem_cons_of_mem r ?_
        refine ih (r.title :: seen) i' hi' ?_
          (fun j hj => hfirst (j + 1) (Nat.succ_lt_succ hj))
        intro hc
        rcases List.mem_cons.1 hc with he | hmem
        · exact hfirst 0 (Nat.succ_pos i') he.symm
        · exact hseen hmem

/-! ### Numeric range facts: non-negative weights and cosine in [0, 1] -/

theorem idf_nonneg (docs : List String) (t : String) : 0 ≤ idf docs t := by
  have hdf : ((docFreq docs t : ℕ) : ℝ) ≤ ((docs.length : ℕ) : ℝ) := by
    exact_mod_cast (List.countP_le_length (p := fun d => (analyze d).contains t))
  have hpos : (0 : ℝ) < 1 + (docFreq docs t : ℝ) := by positivity
  have h1 : (1 : ℝ) ≤ (1 + (docs.length : ℝ)) / (1 + (docFreq docs t : ℝ)) := by
    rw [le_div_iff₀ hpos]
    linarith
  have h2 := Real.log_nonneg h1
  unfold idf
  linarith

theorem tfidfRaw_nonneg (docs : List String) (i : Nat) (t : String) :
    0 ≤ tfidfRaw docs i t :=
  mul_nonneg (Nat.cast_nonneg _) (idf_nonneg docs t)

theorem tfidfRow_nonneg (docs : List String) (i : Nat) (t : String) :
    0 ≤ tfidfRow docs i t :=
  div_nonneg (tfidfRaw_nonneg docs i t) (Real.sqrt_nonneg _)

theorem dotV_nonneg (docs : List String) (u v : String → ℝ)
    (hu : ∀ t, 0 ≤ u t) (hv : ∀ t, 0 ≤ v t) : 0 ≤ dotV docs u v := by
  apply List.sum_nonneg
  intro x hx
  rcases List.mem_map.1 hx with ⟨t, _, rfl⟩
  exact mul_nonneg (hu t) (hv t)

theorem dotV_sq_le (docs : List String) (u v : String → ℝ) :
    dotV docs u v ^ 2 ≤ dotV docs u u * dotV docs v v := by
  have hnd : (vocabOf docs).Nodup := List.nodup_dedup _
  have hsq : ∀ w : String → ℝ,
      dotV docs w w = ∑ t in (vocabOf docs).toFinset, w t ^ 2 := by
    intro w
    rw [dotV, ← List.sum_toFinset _ hnd]
    exact Finset.sum_congr rfl fun t _ => (pow_two (w t)).symm
  have hdot : dotV docs u v = ∑ t in (vocabOf docs).toFinset, u t * v t := by
    rw [dotV, ← List.sum_toFinset _ hnd]
  rw [hdot, hsq u, hsq v]
  exact Finset.sum_mul_sq_le_sq_mul_sq _ u v

theorem cosineSim_nonneg (docs : List String) (u v : String → ℝ)
    (hu : ∀ t, 0 ≤ u t) (hv : ∀ t, 0 ≤ v t) : 0 ≤ cosineSim docs u v :=
  div_nonneg (dotV_nonneg docs u v hu hv)
    (mul_nonneg (Real.sqrt_nonneg _) (Real.sqrt_nonneg _))

theorem cosineSim_le_one (docs : List String) (u v : String → ℝ)
    (hu : ∀ t, 0 ≤ u t) (hv : ∀ t, 0 ≤ v t) : cosineSim docs u v ≤ 1 := by
  have hA : 0 ≤ dotV docs u u := dotV_nonneg docs u u hu hu
  have hd : 0 ≤ dotV docs u v := dotV_nonneg docs u v hu hv
  have hcs := dotV_sq_le docs u v
  have hle : dotV docs u v ≤ Real.sqrt (dotV docs u u) * Real.sqrt (dotV docs v v) := by
    rw [← Real.sqrt_mul hA]
    calc dotV docs u v = Real.sqrt (dotV docs u v ^ 2) := (Real.sqrt_sq hd).symm
      _ ≤ Real.sqrt (dotV docs u u * dotV docs v v) := Real.sqrt_le_sqrt hcs
  simp only [cosineSim, l2norm]
  rcases eq_or_lt_of_le (mul_nonneg (Real.sqrt_nonneg (dotV docs u u))
      (Real.sqrt_nonneg (dotV docs v v))) with heq | hpos
  · rw [← heq, div_zero]
    exact zero_le_one
  · rw [div_le_one hpos]
    exact hle

theorem roundHalfEven_nonneg (y : ℝ) (h : 0 ≤ y) : 0 ≤ roundHalfEven y := by
  unfold roundHalfEven
  split
  · have h0 : (0 : ℤ) ≤ ⌊y⌋ := Int.le_floor.2 (by simpa using h)
    split
    · exact h0
    · omega
  · rw [round_eq]
    exact Int.le_floor.2 (by push_cast; linarith)

theorem roundHalfEven_le (y : ℝ) (B : ℤ) (h : y ≤ (B : ℝ)) : roundHalfEven y ≤ B := by
  unfold roundHalfEven
  split
  · rename_i htie
    have hfl : (⌊y⌋ : ℝ) = y - 1 / 2 := by linarith
    have hlt : (⌊y⌋ : ℝ) < (B : ℝ) := by linarith
    have hltz : ⌊y⌋ < B := by exact_mod_cast hlt
    split
    · omega
    · omega
  · rw [round_eq]
    have h3 : ⌊y + 1 / 2⌋ ≤ ⌊(B : ℝ) + 1 / 2⌋ := Int.floor_le_floor (by linarith)
    have h4 : ⌊(B : ℝ) + 1 / 2⌋ = B := by
      rw [Int.floor_int_add]
      norm_num
    omega

theorem pyRound1_bounds (x : ℝ) (h0 : 0 ≤ x) (h100 : x ≤ 100) :
    0 ≤ pyRound1 x ∧ pyRound1 x ≤ 100 := by
  have hy0 : 0 ≤ x * 10 := by linarith
  have hyB : x * 10 ≤ ((1000 : ℤ) : ℝ) := by push_cast; linarith
  have hr0 := roundHalfEven_nonneg (x * 10) hy0
  have hrB := roundHalfEven_le (x * 10) 1000 hyB
  constructor
  · apply div_nonneg _ (by norm_num : (0 : ℝ) ≤ 10)
    exact_mod_cast hr0
  · rw [pyRound1, div_le_iff₀ (by norm_num : (0 : ℝ) < 10)]
    have hc : ((roundHalfEven (x * 10) : ℤ) : ℝ) ≤ ((1000 : ℤ) : ℝ) := by
      exact_mod_cast hrB
    push_cast at hc ⊢
    linarith

/-! ### Evaluation of the concrete example catalog -/

theorem exArgsort : argsortAsc (simScores exState 0) = [0, 1, 2] := by
  have hs : simScores exState 0 = [exScore, exScore, exScore] := rfl
  rw [argsortAsc, hs]
  rw [show ([exScore, exScore, exScore] : List ℝ).length = 3 from rfl]
  rw [argsortKey_eq_self]
  · rfl
  · intro a ha b hb
    rw [List.mem_range] at ha hb
    interval_cases a <;> interval_cases b <;> rfl

theorem exSimilar : similarIndices (simScores exState 0) 0 20 = [2, 1] := by
  rw [similarIndices, exArgsort]
  rfl

theorem exRecs : (getRecommendations exState (some 10) none 20).recommendations
    = rankedMap exState (simScores exState 0) 1 [2, 1] := by
  have h1 : (getRecommendations exState (some 10) none 20).recommendations
      = rankedMap exState (simScores exState 0) 1
          (similarIndices (simScores exState 0) 0 20) := rfl
  rw [h1, exSimilar]

/-! ### Dispatch of `get_recommendations` on a present movie id -/

theorem getRecommendations_by_id (st : RecState) (mid : Int) (idx k : Nat)
    (h1 : st.is_loaded = true)
    (h2 : findFirstIdx (fun m => m.movieId == some mid) st.df = some idx) :
    getRecommendations st (some mid) none k = recsFor st idx k := by
  simp [getRecommendations, h1, h2]

theorem findMovie_eq (st : RecState) (query : String) (h : st.is_loaded = true) :
    findMovie st query =
      (match findFirstIdx (rawTitleMatches (pyStrip (pyLower query))) st.df with
       | some i => some i
       | none =>
         match findFirstIdx (cleanTitleMatches (pyStrip (pyLower query))) st.df with
         | some i => some i
         | none =>
           findFirstIdx (fun m => cleanTitleContains m (pyStrip (pyLower query))) st.df) := by
  simp [findMovie, h]

/-! ### Claim theorems -/

/-- C1 (counterexample).  The claim states that equally scored results are
ordered by ascending catalog ordinal.  In `exState` all similarities are
equal, and `get_recommendations` for movie id 10 (ordinal 0) returns the
movie with ordinal 2 (id 30) before the movie with ordinal 1 (id 20), with
identical attached similarity scores: the tie is broken by *descending*
ordinal, so the claim as stated is false. -/
theorem claimC1_counterexample :
    (getRecommendations exState (some 10) none 20).recommendations.map (fun d => d.id)
        = [some 30, some 20] ∧
      (getRecommendations exState (some 10) none 20).recommendations.map
          (fun d => d.similarity_score)
        = [some (pyRound1 (exScore * 100)), some (pyRound1 (exScore * 100))] ∧
      findFirstIdx (fun m => m.movieId == some 30) exState.df = some 2 ∧
      findFirstIdx (fun m => m.movieId == some 20) exState.df = some 1 := by
  refine ⟨?_, ?_, rfl, rfl⟩
  · rw [exRecs]
    rfl
  · rw [exRecs]
    rfl

/-- C1 (amended).  For every loaded catalog and valid id query, the
recommendation list is the image of the ranked ordinal list
`similarIndices`, which is sorted by descending similarity score; whenever
two returned ordinals have equal scores the *larger* ordinal appears first
(the code reverses a stable ascending argsort, which inverts the tie order
asserted by the spec). -/
theorem claimC1_rank_order (st : RecState) (mid : Int) (idx k : Nat)
    (h1 : st.is_loaded = true)
    (h2 : findFirstIdx (fun m => m.movieId == some mid) st.df = some idx) :
    (getRecommendations st (some mid) none k).recommendations
        = rankedMap st (simScores st idx) 1 (similarIndices (simScores st idx) idx k) ∧
      (similarIndices (simScores st idx) idx k).Pairwise (fun a b =>
        (simScores st idx).getD b 0 ≤ (simScores st idx).getD a 0 ∧
          ((simScores st idx).getD a 0 = (simScores st idx).getD b 0 → b < a)) :=
  ⟨by rw [getRecommendations_by_id st mid idx k h1 h2]; rfl, similarIndices_pairwise _ _ _⟩

/-- C1 (witness): the amended rank-ordering theorem applied to the concrete
catalog `exState` at movie id 10 (ordinal 0). -/
theorem claimC1_witness :
    exState.is_loaded = true ∧
      findFirstIdx (fun m => m.movieId == some 10) exState.df = some 0 ∧
      ((getRecommendations exState (some 10) none 20).recommendations
          = rankedMap exState (simScores exState 0) 1
              (similarIndices (simScores exState 0) 0 20) ∧
        (similarIndices (simScores exState 0) 0 20).Pairwise (fun a b =>
          (simScores exState 0).getD b 0 ≤ (simScores exState 0).getD a 0 ∧
            ((simScores exState 0).getD a 0 = (simScores exState 0).getD b 0 → b < a))) :=
  ⟨rfl, rfl, claimC1_rank_order exState 10 0 20 rfl rfl⟩

/-- C2.  For every loaded catalog, every present movie id and every `k`,
the recommendation list has length exactly `min k (N - 1)` where `N` is the
catalog size: when `k` exceeds the number of candidates all of them are
returned, with no padding and no error. -/
theorem claimC2_topk_length (st : RecState) (mid : Int) (idx k : Nat)
    (h1 : st.is_loaded = true)
    (h2 : findFirstIdx (fun m => m.movieId == some mid) st.df = some idx) :
    (getRecommendations st (some mid) none k).recommendations.length
      = min k (st.df.length - 1) := by
  rw [getRecommendations_by_id st mid idx k h1 h2]
  have hidx : idx < st.df.length := findFirstIdx_lt_length _ _ _ h2
  have hidx' : idx < (simScores st idx).length := by
    rw [simScores_length]
    exact hidx
  simp only [recsFor]
  rw [rankedMap_length, similarIndices_length _ _ _ hidx', simScores_length]

/-- C2 (witness): applied to the three-movie catalog `exState`; with
`k = 5` exceeding the two available candidates, exactly
`min 5 (3 - 1) = 2` results come back. -/
theorem claimC2_witness :
    exState.is_loaded = true ∧
      findFirstIdx (fun m => m.movieId == some 10) exState.df = some 0 ∧
      (getRecommendations exState (some 10) none 5).recommendations.length
        = min 5 (exState.df.length - 1) ∧
      min 5 (exState.df.length - 1) = 2 :=
  ⟨rfl, rfl, claimC2_topk_length exState 10 0 5 rfl rfl, rfl⟩

/-- C3.  The query movie's own ordinal is excluded from the ranked ordinal
list that the recommendation list is built from, so a movie never appears
among its own recommendations. -/
theorem claimC3_self_exclusion (st : RecState) (mid : Int) (idx k : Nat)
    (h1 : st.is_loaded = true)
    (h2 : findFirstIdx (fun m => m.movieId == some mid) st.df = some idx) :
    idx ∉ similarIndices (simScores st idx) idx k ∧
      (getRecommendations st (some mid) none k).recommendations
        = rankedMap st (simScores st idx) 1 (similarIndices (simScores st idx) idx k) := by
  constructor
  · intro hmem
    exact (similarIndices_mem _ _ _ _ hmem).2 rfl
  · rw [getRecommendations_by_id st mid idx k h1 h2]
    rfl

/-- C3 (witness): applied to `exState` at movie id 20 (ordinal 1). -/
theorem claimC3_witness :
    exState.is_loaded = true ∧
      findFirstIdx (fun m => m.movieId == some 20) exState.df = some 1 ∧
      (1 ∉ similarIndices (simScores exState 1) 1 20 ∧
        (getRecommendations exState (some 20) none 20).recommendations
          = rankedMap exState (simScores exState 1) 1
              (similarIndices (simScores exState 1) 1 20)) :=
  ⟨rfl, rfl, claimC3_self_exclusion exState 20 1 20 rfl rfl⟩

/-- C4.  Every similarity score attached to a returned recommendation is the
cosine similarity between the query's TF-IDF vector and the candidate's,
scaled by 100 and rounded to one decimal, and lies in [0, 100]: TF-IDF
weights are non-negative and the Cauchy-Schwarz inequality bounds the cosine
by 1. -/
theorem claimC4_score_range (st : RecState) (mid : Int) (idx k : Nat)
    (h1 : st.is_loaded = true)
    (h2 : findFirstIdx (fun m => m.movieId == some mid) st.df = some idx) :
    ∀ d ∈ (getRecommendations st (some mid) none k).recommendations,
      ∃ j, j < st.df.length ∧ j ≠ idx ∧
        d.similarity_score = some (pyRound1
          (cosineSim (docsOf st) (tfidfRow (docsOf st) idx) (tfidfRow (docsOf st) j)
            * 100)) ∧
        ∃ s, d.similarity_score = some s ∧ 0 ≤ s ∧ s ≤ 100 := by
  intro d hd
  rw [getRecommendations_by_id st mid idx k h1 h2] at hd
  have hd' : d ∈ rankedMap st (simScores st idx) 1
      (similarIndices (simScores st idx) idx k) := hd
  rcases rankedMap_mem _ _ _ _ _ hd' with ⟨r', j, hj, rfl⟩
  rcases similarIndices_mem _ _ _ _ hj with ⟨hjlen, hjne⟩
  rw [simScores_length] at hjlen
  have hc := simScores_getD st idx j hjlen
  have h0 : 0 ≤ (simScores st idx).getD j 0 := by
    rw [hc]
    exact cosineSim_nonneg _ _ _ (tfidfRow_nonneg (docsOf st) idx)
      (tfidfRow_nonneg (docsOf st) j)
  have h1c : (simScores st idx).getD j 0 ≤ 1 := by
    rw [hc]
    exact cosineSim_le_one _ _ _ (tfidfRow_nonneg (docsOf st) idx)
      (tfidfRow_nonneg (docsOf st) j)
  have hb := pyRound1_bounds ((simScores st idx).getD j 0 * 100)
    (by linarith) (by linarith)
  refine ⟨j, hjlen, hjne, ?_, ?_⟩
  · simp only [movieToDict, Option.map_some']
    rw [hc]
  · exact ⟨pyRound1 ((simScores st idx).getD j 0 * 100),
      by simp [movieToDict], hb.1, hb.2⟩

/-- C4 (witness): applied to `exState` at movie id 10 (ordinal 0). -/
theorem claimC4_witness :
    exState.is_loaded = true ∧
      findFirstIdx (fun m => m.movieId == some 10) exState.df = some 0 ∧
      ∀ d ∈ (getRecommendations exState (some 10) none 20).recommendations,
        ∃ j, j < exState.df.length ∧ j ≠ 0 ∧
          d.similarity_score = some (pyRound1
            (cosineSim (docsOf exState) (tfidfRow (docsOf exState) 0)
              (tfidfRow (docsOf exState) j) * 100)) ∧
          ∃ s, d.similarity_score = some s ∧ 0 ≤ s ∧ s ≤ 100 :=
  ⟨rfl, rfl, claimC4_score_range exState 10 0 20 rfl rfl⟩

/-- C5.  On a loaded catalog, `find_movie` resolves a query with the coded
precedence, first match winning inside each stage: (1) case-insensitive
exact match on the raw title, (2) case-insensitive exact match on the clean
title, (3) case-insensitive substring match on the clean title taking the
first occurrence in catalog order; when no stage matches the result is the
explicit not-found value `none`, never an exception (the embedding is a
total function). -/
theorem claimC5_resolver_precedence (st : RecState) (query : String)
    (h : st.is_loaded = true) :
    (findMovie st query = none ↔
      ∀ m ∈ st.df, rawTitleMatches (pyStrip (pyLower query)) m = false ∧
        cleanTitleMatches (pyStrip (pyLower query)) m = false ∧
        cleanTitleContains m (pyStrip (pyLower query)) = false) ∧
    ∀ i, findMovie st query = some i →
      ∃ m, st.df[i]? = some m ∧
        ((rawTitleMatches (pyStrip (pyLower query)) m = true ∧
            ∀ j, j < i → ∀ m', st.df[j]? = some m' →
              rawTitleMatches (pyStrip (pyLower query)) m' = false) ∨
         ((∀ m' ∈ st.df, rawTitleMatches (pyStrip (pyLower query)) m' = false) ∧
            cleanTitleMatches (pyStrip (pyLower query)) m = true ∧
            ∀ j, j < i → ∀ m', st.df[j]? = some m' →
              cleanTitleMatches (pyStrip (pyLower query)) m' = false) ∨
         ((∀ m' ∈ st.df, rawTitleMatches (pyStrip (pyLower query)) m' = false) ∧
            (∀ m' ∈ st.df, cleanTitleMatches (pyStrip (pyLower query)) m' = false) ∧
            cleanTitleContains m (pyStrip (pyLower query)) = true ∧
            ∀ j, j < i → ∀ m', st.df[j]? = some m' →
              cleanTitleContains m' (pyStrip (pyLower query)) = false)) := by
  rw [findMovie_eq st query h]
  set q := pyStrip (pyLower query) with hq
  constructor
  · constructor
    · intro hnone m hm
      cases hraw : findFirstIdx (rawTitleMatches q) st.df with
      | some i => exact absurd hnone (by simp [hraw])
      | none =>
        cases hclean : findFirstIdx (cleanTitleMatches q) st.df with
        | some i => exact absurd hnone (by simp [hraw, hclean])
        | none =>
          simp only [hraw, hclean] at hnone
          exact ⟨(findFirstIdx_eq_none_iff _ _).1 hraw m hm,
            (findFirstIdx_eq_none_iff _ _).1 hclean m hm,
            (findFirstIdx_eq_none_iff _ _).1 hnone m hm⟩
    · intro hall
      have hraw : findFirstIdx (rawTitleMatches q) st.df = none :=
        (findFirstIdx_eq_none_iff _ _).2 (fun m hm => (hall m hm).1)
      have hclean : findFirstIdx (cleanTitleMatches q) st.df = none :=
        (findFirstIdx_eq_none_iff _ _).2 (fun m hm => (hall m hm).2.1)
      have hcont : findFirstIdx (fun m => cleanTitleContains m q) st.df = none :=
        (findFirstIdx_eq_none_iff _ _).2 (fun m hm => (hall m hm).2.2)
      simp only [hraw, hclean, hcont]
  · intro i hi
    cases hraw : findFirstIdx (rawTitleMatches q) st.df with
    | some i0 =>
      simp only [hraw] at hi
      injection hi with hi
      subst hi
      rcases (findFirstIdx_eq_some_iff _ _ _).1 hraw with ⟨⟨m, hm, hpm⟩, hmin⟩
      exact ⟨m, hm, Or.inl ⟨hpm, hmin⟩⟩
    | none =>
      have hrawall := (findFirstIdx_eq_none_iff _ _).1 hraw
      cases hclean : findFirstIdx (cleanTitleMatches q) st.df with
      | some i0 =>
        simp only [hraw, hclean] at hi
        injection hi with hi
        subst hi
        rcases (findFirstIdx_eq_some_iff _ _ _).1 hclean with ⟨⟨m, hm, hpm⟩, hmin⟩
        exact ⟨m, hm, Or.inr (Or.inl ⟨hrawall, hpm, hmin⟩)⟩
      | none =>
        simp only [hraw, hclean] at hi
        rcases (findFirstIdx_eq_some_iff _ _ _).1 hi with ⟨⟨m, hm, hpm⟩, hmin⟩
        exact ⟨m, hm, Or.inr (Or.inr
          ⟨hrawall, (findFirstIdx_eq_none_iff _ _).1 hclean, hpm, hmin⟩)⟩

/-- C5 (witness): resolver precedence on the concrete `heatState` catalog.
The raw-title query "Heat (1995)" resolves to ordinal 1 by exact match, and
the query "heat" also resolves to ordinal 1 by exact clean-title match even
though ordinal 0's clean title "Dead Heat" substring-matches "heat". -/
theorem claimC5_witness :
    heatState.is_loaded = true ∧
      findMovie heatState "Heat (1995)" = some 1 ∧
      findMovie heatState "heat" = some 1 ∧
      cleanTitleContains (heatState.df.getD 0 default) "heat" = true ∧
      ((findMovie heatState "Heat (1995)" = none ↔
        ∀ m ∈ heatState.df,
          rawTitleMatches (pyStrip (pyLower "Heat (1995)")) m = false ∧
          cleanTitleMatches (pyStrip (pyLower "Heat (1995)")) m = false ∧
          cleanTitleContains m (pyStrip (pyLower "Heat (1995)")) = false) ∧
      ∀ i, findMovie heatState "Heat (1995)" = some i →
        ∃ m, heatState.df[i]? = some m ∧
          ((rawTitleMatches (pyStrip (pyLower "Heat (1995)")) m = true ∧
              ∀ j, j < i → ∀ m', heatState.df[j]? = some m' →
                rawTitleMatches (pyStrip (pyLower "Heat (1995)")) m' = false) ∨
           ((∀ m' ∈ heatState.df,
                rawTitleMatches (pyStrip (pyLower "Heat (1995)")) m' = false) ∧
              cleanTitleMatches (pyStrip (pyLower "Heat (1995)")) m = true ∧
              ∀ j, j < i → ∀ m', heatState.df[j]? = some m' →
                cleanTitleMatches (pyStrip (pyLower "Heat (1995)")) m' = false) ∨
           ((∀ m' ∈ heatState.df,
                rawTitleMatches (pyStrip (pyLower "Heat (1995)")) m' = false) ∧
              (∀ m' ∈ heatState.df,
                cleanTitleMatches (pyStrip (pyLower "Heat (1995)")) m' = false) ∧
              cleanTitleContains m (pyStrip (pyLower "Heat (1995)")) = true ∧
              ∀ j, j < i → ∀ m', heatState.df[j]? = some m' →
                cleanTitleContains m' (pyStrip (pyLower "Heat (1995)")) = false))) :=
  ⟨rfl, rfl, rfl, rfl, claimC5_resolver_precedence heatState "Heat (1995)" rfl⟩

/-- C6 (counterexample).  The claim asserts `genre_tags` never contains the
sentinel or an empty token, but the code filters tokens *before* stripping
them: a whitespace-only token survives the filter and is stripped to the
empty string, and a whitespace-padded sentinel survives and is stripped to
the sentinel itself. -/
theorem claimC6_counterexample :
    "" ∈ genreList "Action| |Comedy" ∧
      "(no genres listed)" ∈ genreList "Action| (no genres listed)" := by
  constructor <;> decide

/-- C6 (amended).  The derived genre list preserves the order of the
pipe-delimited source, trims each kept token, and excludes exactly the
tokens that are empty or equal to the sentinel *before* trimming (so
trimming can reintroduce an empty or sentinel entry); the documented
example still yields exactly ["Action", "Adventure"]. -/
theorem claimC6_genre_roundtrip :
    (∀ s : String, List.Sublist (genreList s) ((pySplit '|' s).map pyStrip)) ∧
      (∀ s : String, ∀ g ∈ genreList s,
        ∃ t ∈ pySplit '|' s, t ≠ "" ∧ t ≠ "(no genres listed)" ∧ g = pyStrip t) ∧
      genreList "Action|Adventure|(no genres listed)" = ["Action", "Adventure"] := by
  refine ⟨?_, ?_, by decide⟩
  · intro s
    exact List.Sublist.map pyStrip (List.filter_sublist _)
  · intro s g hg
    rcases List.mem_map.1 hg with ⟨t, ht, rfl⟩
    have ht' := List.mem_filter.1 ht
    have hcond : t ≠ "" ∧ t ≠ "(no genres listed)" := by simpa using ht'.2
    exact ⟨t, ht'.1, hcond.1, hcond.2, rfl⟩

/-- C6 (witness): the amended characterization applied to the documented
example string at the token "Action". -/
theorem claimC6_witness :
    ("Action" ∈ genreList "Action|Adventure|(no genres listed)") ∧
      ∃ t ∈ pySplit '|' "Action|Adventure|(no genres listed)",
        t ≠ "" ∧ t ≠ "(no genres listed)" ∧ "Action" = pyStrip t :=
  ⟨by decide,
    claimC6_genre_roundtrip.2.1 "Action|Adventure|(no genres listed)" "Action" (by decide)⟩

/-- Branch analysis of `load_data` on a parsed table: either the catalog is
the deduplicated, re-processed row list, or the load failed with an empty
catalog. -/
theorem loadData_some_df (tbl : InputTable) :
    (loadData (some tbl)).df
        = (dedupByTitle (dropIncomplete tbl.rows)).map (processRow tbl) ∨
      ((loadData (some tbl)).df = [] ∧ (loadData (some tbl)).is_loaded = false) := by
  simp only [loadData]
  split
  · split
    · exact Or.inl rfl
    · exact Or.inl rfl
  · exact Or.inr ⟨rfl, rfl⟩

/-- Every failing branch of `load_data` records a non-empty error message. -/
theorem loadData_not_loaded_msg (input : Option InputTable)
    (h : (loadData input).is_loaded = false) :
    ∃ msg, (loadData input).error_message = some msg ∧ msg ≠ "" := by
  match input with
  | none => exact ⟨"No movie dataset found", rfl, by decide⟩
  | some tbl =>
    revert h
    simp only [loadData]
    split
    · split
      · intro _
        exact ⟨"Error loading data: empty vocabulary; perhaps the documents only contain stop words", rfl, by decide⟩
      · intro h
        exact absurd h (by simp)
    · intro _
      exact ⟨"Error loading data: CSV must contain columns: movieId, title, genres", rfl, by decide⟩

/-- On a successful load the catalog is exactly the deduplicated, processed
row list. -/
theorem loadData_df_of_loaded (tbl : InputTable)
    (h : (loadData (some tbl)).is_loaded = true) :
    (loadData (some tbl)).df
      = (dedupByTitle (dropIncomplete tbl.rows)).map (processRow tbl) := by
  rcases loadData_some_df tbl with hdf | ⟨_, hnl⟩
  · exact hdf
  · rw [h] at hnl
    cases hnl

/-- C7.  Whenever the catalog is not loaded, `get_recommendations` returns a
result with a non-empty human-readable error message, no selected movie and
an empty recommendations list; and whenever `load_data` fails (no dataset
file, missing required columns, or an empty fitted vocabulary) it leaves
the loaded flag false and records a non-empty error message.  Both embedded
functions are total: no exception escapes. -/
theorem claimC7_failure_handling :
    (∀ st : RecState, ∀ mid : Option Int, ∀ mt : Option String, ∀ k : Nat,
        st.is_loaded = false →
        (getRecommendations st mid mt k).recommendations = [] ∧
          (getRecommendations st mid mt k).selected_movie = none ∧
          ∃ msg, (getRecommendations st mid mt k).error = some msg ∧ msg ≠ "") ∧
      ∀ input : Option InputTable, (loadData input).is_loaded = false →
        ∃ msg, (loadData input).error_message = some msg ∧ msg ≠ "" := by
  constructor
  · intro st mid mt k h
    have hres : getRecommendations st mid mt k =
        { selected_movie := none, recommendations := [],
          error := some (pyOrElse st.error_message "Data not loaded") } := by
      simp [getRecommendations, h]
    rw [hres]
    refine ⟨rfl, rfl, pyOrElse st.error_message "Data not loaded", rfl, ?_⟩
    cases hx : st.error_message with
    | none => simp [pyOrElse]
    | some s =>
      by_cases hs : s = ""
      · simp [pyOrElse, hs]
      · simp [pyOrElse, hs]
  · exact fun input h => loadData_not_loaded_msg input h

/-- C7 (witness): the failure behavior at the concrete unloaded state
`loadData none` and the concrete column-deficient table `badTable`. -/
theorem claimC7_witness :
    (loadData none).is_loaded = false ∧
      ((getRecommendations (loadData none) none none 20).recommendations = [] ∧
        (getRecommendations (loadData none) none none 20).selected_movie = none ∧
        ∃ msg, (getRecommendations (loadData none) none none 20).error = some msg ∧
          msg ≠ "") ∧
      (loadData (some badTable)).is_loaded = false ∧
      ∃ msg, (loadData (some badTable)).error_message = some msg ∧ msg ≠ "" :=
  ⟨rfl, claimC7_failure_handling.1 (loadData none) none none 20 rfl, rfl,
    claimC7_failure_handling.2 (some badTable) rfl⟩

/-- C8 (counterexample).  The claim says every *record* lacking a rating
gets 7.0, but `_ensure_columns` only tests whether the rating *column*
exists: in `ratingGapTable` the column exists while row 1's cell is missing,
and after loading that record's rating is still missing, not 7.0. -/
theorem claimC8_counterexample :
    (ratingGapTable.rows.getD 1 default).rating = none ∧
      (loadData (some ratingGapTable)).is_loaded = true ∧
      (loadData (some ratingGapTable)).df.length = 2 ∧
      ((loadData (some ratingGapTable)).df.getD 1 default).rating = none ∧
      (none : Option ℚ) ≠ some 7 := by
  refine ⟨rfl, rfl, rfl, rfl, by decide⟩

/-- C8 (amended).  The defaults are column-level: when the input table lacks
the rating column entirely, every loaded record gets rating exactly 7.0;
likewise vote_count 1000 and popularity 50.0.  When a column is present,
missing cells are left missing. -/
theorem claimC8_defaults (tbl : InputTable) (m : Movie)
    (hm : m ∈ (loadData (some tbl)).df) :
    (tbl.hasRating = false → m.rating = some 7) ∧
      (tbl.hasVoteCount = false → m.vote_count = some 1000) ∧
      (tbl.hasPopularity = false → m.popularity = some 50) := by
  have hr : ∃ r, m = processRow tbl r := by
    rcases loadData_some_df tbl with hdf | ⟨hdf, _⟩
    · rw [hdf] at hm
      rcases List.mem_map.1 hm with ⟨r, _, he⟩
      exact ⟨r, he.symm⟩
    · rw [hdf] at hm
      cases hm
  rcases hr with ⟨r, rfl⟩
  refine ⟨?_, ?_, ?_⟩ <;> intro hcol <;> simp [processRow, hcol]

/-- C8 (witness): the column-level defaults on the concrete table
`noOptTable`, which lacks the rating, vote-count and popularity columns. -/
theorem claimC8_witness :
    noOptTable.hasRating = false ∧
      ((loadData (some noOptTable)).df.getD 0 default).rating = some 7 ∧
      ((loadData (some noOptTable)).df.getD 0 default).vote_count = some 1000 ∧
      ((loadData (some noOptTable)).df.getD 0 default).popularity = some 50 :=
  ⟨rfl,
    (claimC8_defaults noOptTable _ (by decide)).1 rfl,
    (claimC8_defaults noOptTable _ (by decide)).2.1 rfl,
    (claimC8_defaults noOptTable _ (by decide)).2.2 rfl⟩

/-- C9.  Loading drops exactly the rows missing a title or a genre string,
deduplicates by exact title keeping the first occurrence, and the loaded
catalog is the processed image of that list, so its positions form the dense
0-based ordinal sequence in original input order (list order) and all
loaded titles are pairwise distinct. -/
theorem claimC9_dedup_reindex (tbl : InputTable)
    (h : (loadData (some tbl)).is_loaded = true) :
    (loadData (some tbl)).df
        = (dedupByTitle (dropIncomplete tbl.rows)).map (processRow tbl) ∧
      (∀ r ∈ tbl.rows,
        (r ∈ dropIncomplete tbl.rows ↔ r.title.isSome ∧ r.genres.isSome)) ∧
      ((loadData (some tbl)).df.map (fun m => m.title)).Nodup ∧
      List.Sublist (dedupByTitle (dropIncomplete tbl.rows)) (dropIncomplete tbl.rows) ∧
      (∀ i (hi : i < (dropIncomplete tbl.rows).length),
        (∀ j (hj : j < i),
          ((dropIncomplete tbl.rows).get ⟨j, Nat.lt_trans hj hi⟩).title ≠
            ((dropIncomplete tbl.rows).get ⟨i, hi⟩).title) →
        (dropIncomplete tbl.rows).get ⟨i, hi⟩ ∈ dedupByTitle (dropIncomplete tbl.rows)) := by
  have hdf := loadData_df_of_loaded tbl h
  have hnd := (dedupByTitleAux_titles [] (dropIncomplete tbl.rows)).1
  refine ⟨hdf, ?_, ?_, dedupByTitleAux_sublist [] _, ?_⟩
  · intro r hr
    simp [dropIncomplete, List.mem_filter, hr]
  · have hsome : ∀ r ∈ dedupByTitle (dropIncomplete tbl.rows), r.title.isSome := by
      intro r hr
      have hmem : r ∈ dropIncomplete tbl.rows :=
        (dedupByTitleAux_sublist [] _).subset hr
      have hfil : r.title.isSome ∧ r.genres.isSome := by
        simpa using (List.mem_filter.1 hmem).2
      exact hfil.1
    have hmap : (loadData (some tbl)).df.map (fun m => m.title)
        = (dedupByTitle (dropIncomplete tbl.rows)).map (fun r => r.title.getD "") := by
      rw [hdf, List.map_map]
      rfl
    rw [hmap]
    have hinj := List.inj_on_of_nodup_map hnd
    refine List.Nodup.map_on ?_ (List.Nodup.of_map _ hnd)
    intro x hx y hy he
    refine hinj hx hy ?_
    rcases Option.isSome_iff_exists.1 (hsome x hx) with ⟨a, ha⟩
    rcases Option.isSome_iff_exists.1 (hsome y hy) with ⟨b, hb⟩
    rw [ha, hb] at he ⊢
    simp only [Option.getD_some] at he
    rw [he]
  · intro i hi hfirst
    exact dedupByTitleAux_first_mem [] _ i hi (List.not_mem_nil _) hfirst

/-- C9 (witness): loading `dupTable` drops the untitled row and the
duplicate "Alpha", leaving the two distinct titles in input order. -/
theorem claimC9_witness :
    (loadData (some dupTable)).is_loaded = true ∧
      (loadData (some dupTable)).df.length = 2 ∧
      (loadData (some dupTable)).df.map (fun m => m.title) = ["Alpha", "Beta"] ∧
      ((loadData (some dupTable)).df
          = (dedupByTitle (dropIncomplete dupTable.rows)).map (processRow dupTable) ∧
        (∀ r ∈ dupTable.rows,
          (r ∈ dropIncomplete dupTable.rows ↔ r.title.isSome ∧ r.genres.isSome)) ∧
        ((loadData (some dupTable)).df.map (fun m => m.title)).Nodup ∧
        List.Sublist (dedupByTitle (dropIncomplete dupTable.rows))
          (dropIncomplete dupTable.rows) ∧
        (∀ i (hi : i < (dropIncomplete dupTable.rows).length),
          (∀ j (hj : j < i),
            ((dropIncomplete dupTable.rows).get ⟨j, Nat.lt_trans hj hi⟩).title ≠
              ((dropIncomplete dupTable.rows).get ⟨i, hi⟩).title) →
          (dropIncomplete dupTable.rows).get ⟨i, hi⟩ ∈
            dedupByTitle (dropIncomplete dupTable.rows))) :=
  ⟨rfl, rfl, rfl, claimC9_dedup_reindex dupTable rfl⟩

/-- C10 (counterexample).  The claim says a call with neither identifier
always yields the message "Please provide a movie ID or title", but the
`is_loaded` guard runs first: on the unloaded state produced by a missing
dataset, the same call returns the load error instead. -/
theorem claimC10_counterexample :
    (getRecommendations (loadData none) none none 20).error
        = some "No movie dataset found" ∧
      (getRecommendations (loadData none) none none 20).recommendations = [] ∧
      some "No movie dataset found" ≠ some "Please provide a movie ID or title" := by
  refine ⟨rfl, rfl, by decide⟩

/-- C10 (amended).  On a *loaded* catalog, calling `get_recommendations`
with `movie_id = None` and a missing or empty `movie_title` returns the
error "Please provide a movie ID or title" with no selected movie and an
empty recommendations list, without consulting the catalog and without
raising; on an unloaded catalog the load error is reported instead. -/
theorem claimC10_missing_identifiers (st : RecState) (k : Nat)
    (h : st.is_loaded = true) :
    getRecommendations st none none k
        = { selected_movie := none, recommendations := [],
            error := some "Please provide a movie ID or title" } ∧
      getRecommendations st none (some "") k
        = { selected_movie := none, recommendations := [],
            error := some "Please provide a movie ID or title" } := by
  constructor <;> simp [getRecommendations, h, pyTruthyStr]

/-- C10 (witness): the amended statement at the loaded state `exState`. -/
theorem claimC10_witness :
    exState.is_loaded = true ∧
      (getRecommendations exState none none 20
          = { selected_movie := none, recommendations := [],
              error := some "Please provide a movie ID or title" } ∧
        getRecommendations exState none (some "") 20
          = { selected_movie := none, recommendations := [],
              error := some "Please provide a movie ID or title" }) :=
  ⟨rfl, claimC10_missing_identifiers exState 20 rfl⟩
